import Mathlib

/-!
Shallow embedding of the API-key issuance / validation / metering core of
`src/api_auth.py` (class `APIKeyManager`), together with the plan check the
HTTP boundary performs in `src/web_app.py` (`create_api_key`).

Python strings are modelled as `List Char`, timestamps as natural numbers
(seconds), and the calendar date of a timestamp as `t / 86400`, mirroring
`datetime.fromisoformat(..).date()`.  SHA-256 is modelled as an abstract
function `hash : Str → Str`; collision resistance becomes an injectivity
hypothesis where a theorem needs it.  The sqlite `api_keys` table is a list
of rows in insertion order; `SELECT ... WHERE key_hash = ? / fetchone()` is
`List.find?`, and `UPDATE ... WHERE key_hash = ?` maps the update over every
row whose `key_hash` matches.
-/

namespace TheraSwitch

/-- Python `str` values, modelled as their sequence of characters. -/
abbrev Str := List Char

/-- The fixed credential tag `"tsx_"` (src/api_auth.py line 53 and 91). -/
def tsxTag : Str := "tsx_".data

/-- One row of the `api_keys` table (src/api_auth.py, `init_database`).
`requestLimit` is an `Int` because `-1` is the unlimited sentinel for the
enterprise plan. -/
@[ext]
structure ApiKeyRecord where
  keyId : Str
  keyHash : Str
  userEmail : Str
  userName : Str
  planType : Str
  requestsMade : Nat
  requestLimit : Int
  createdAt : Nat
  expiresAt : Option Nat
  isActive : Bool
  lastUsed : Option Nat
  deriving Repr, DecidableEq

/-- The `api_keys` table, rows in insertion order. -/
abbrev Store := List ApiKeyRecord

/-- Seconds in one day; `toDate` mirrors `datetime.date()` granularity. -/
def secondsPerDay : Nat := 86400

/-- Calendar date of a timestamp, as a day index. -/
def toDate (t : Nat) : Nat := t / secondsPerDay

/-- Seconds in the 365-day validity window (src/api_auth.py line 65). -/
def yearSeconds : Nat := 365 * secondsPerDay

/-- Expiry test of src/api_auth.py line 119:
`expires_at and datetime.fromisoformat(expires_at) < datetime.now()`. -/
def isExpired : Option Nat → Nat → Bool
  | none, _ => false
  | some e, now => e < now

/-- The verdict dictionary returned by `validate_api_key`: either
`{"valid": True, ...}` (with `none` as `requestsRemaining` standing for the
string `"unlimited"`) or `{"valid": False, "error": ...}`. -/
inductive Verdict where
  | valid (userEmail planType : Str) (requestsRemaining : Option Int)
  | invalid (error : Str)
  deriving Repr, DecidableEq

/-- Whether a verdict is the `valid` case. -/
def Verdict.isValid : Verdict → Bool
  | .valid _ _ _ => true
  | .invalid _ => false

/-- Result of one `validate_api_key` call: the returned dictionary, the
resulting table state, and whether the `SELECT` lookup was executed. -/
structure ValidateOut where
  verdict : Verdict
  store : Store
  lookupPerformed : Bool
  deriving Repr, DecidableEq

/-- The daily-reset `UPDATE api_keys SET requests_made = 0` on one row
(src/api_auth.py line 130). -/
def resetRow (r : ApiKeyRecord) : ApiKeyRecord :=
  { r with requestsMade := 0 }

/-- The consume `UPDATE ... SET requests_made = requests_made + 1,
last_used = CURRENT_TIMESTAMP` on one row (src/api_auth.py lines 142-146). -/
def consumeRow (now : Nat) (r : ApiKeyRecord) : ApiKeyRecord :=
  { r with requestsMade := r.requestsMade + 1, lastUsed := some now }

/-- `UPDATE api_keys SET ... WHERE key_hash = h`: apply `f` to every row
whose `keyHash` is `h`. -/
def updateWhere (h : Str) (f : ApiKeyRecord → ApiKeyRecord) (s : Store) : Store :=
  s.map (fun r => if r.keyHash = h then f r else r)

/-- `APIKeyManager.validate_api_key` (src/api_auth.py lines 89-156).
The steps, in source order: format check (line 91), lookup by hash
(lines 98-109), active check (line 114), expiry check (line 119), lazy
daily reset (lines 124-134), quota check (line 137), consume + commit
(lines 142-156).  On the quota-exceeded path the connection is closed
without commit, so the store is returned unchanged there. -/
def validate_api_key (hash : Str → Str) (now : Nat) (store : Store) (api_key : Str) :
    ValidateOut :=
  if api_key.isEmpty || !(tsxTag.isPrefixOf api_key) then
    { verdict := .invalid "Invalid API key format".data, store := store,
      lookupPerformed := false }
  else
    let key_hash := hash api_key
    match store.find? (fun r => r.keyHash == key_hash) with
    | none =>
      { verdict := .invalid "API key not found".data, store := store,
        lookupPerformed := true }
    | some r =>
      if r.isActive = false then
        { verdict := .invalid "API key has been deactivated".data, store := store,
          lookupPerformed := true }
      else if isExpired r.expiresAt now then
        { verdict := .invalid "API key has expired".data, store := store,
          lookupPerformed := true }
      else
        let didReset : Bool := decide (toDate r.createdAt < toDate now)
        let requests_made : Int := if didReset then 0 else (r.requestsMade : Int)
        if 0 < r.requestLimit ∧ r.requestLimit ≤ requests_made then
          { verdict := .invalid "Daily API limit exceeded".data, store := store,
            lookupPerformed := true }
        else
          let store1 := if didReset then updateWhere key_hash resetRow store else store
          let store2 := updateWhere key_hash (consumeRow now) store1
          { verdict := .valid r.userEmail r.planType
              (if 0 < r.requestLimit then
                some (max 0 (r.requestLimit - requests_made - 1))
               else none),
            store := store2, lookupPerformed := true }

/-- The `limits` dict of `generate_api_key` together with its
`.get(plan_type, 100)` lookup (src/api_auth.py lines 57-64). -/
def limits (plan_type : Str) : Int :=
  if plan_type = "free".data then 100
  else if plan_type = "basic".data then 1000
  else if plan_type = "pro".data then 10000
  else if plan_type = "enterprise".data then -1
  else 100

/-- The dictionary `generate_api_key` returns on success
(src/api_auth.py lines 78-83). -/
structure IssuedKey where
  api_key : Str
  plan : Str
  daily_limit : Int
  expires_at : Nat
  deriving Repr, DecidableEq

/-- The row that a successful `INSERT INTO api_keys` persists
(src/api_auth.py lines 71-75, with the table defaults `requests_made = 0`,
`created_at = CURRENT_TIMESTAMP`, `is_active = 1`). -/
def issuedRecord (hash : Str → Str) (now : Nat)
    (token user_email user_name plan_type : Str) : ApiKeyRecord :=
  { keyId := (tsxTag ++ token).take 12
    keyHash := hash (tsxTag ++ token)
    userEmail := user_email
    userName := user_name
    planType := plan_type
    requestsMade := 0
    requestLimit := limits plan_type
    createdAt := now
    expiresAt := some (now + yearSeconds)
    isActive := true
    lastUsed := none }

/-- `APIKeyManager.generate_api_key` (src/api_auth.py lines 50-87).
`token` stands for the value of `secrets.token_urlsafe(32)`.  The table's
only uniqueness constraint is `key_id TEXT UNIQUE`, so the `INSERT` raises
`sqlite3.IntegrityError` — returning `None` with the table unchanged —
exactly when some stored row already carries the new `key_id`
(`api_key[:12]`). -/
def generate_api_key (hash : Str → Str) (now : Nat) (store : Store)
    (token user_email user_name plan_type : Str) : Option IssuedKey × Store :=
  let api_key := tsxTag ++ token
  let request_limit := limits plan_type
  let expires_at := now + yearSeconds
  let key_id := api_key.take 12
  if store.any (fun r => r.keyId == key_id) then
    (none, store)
  else
    (some { api_key := api_key, plan := plan_type, daily_limit := request_limit,
            expires_at := expires_at },
     store ++ [issuedRecord hash now token user_email user_name plan_type])

/-- Iterated sequential validation: `n` calls of `validate_api_key` with the
same credential, threading the table state, collecting the verdicts. -/
def validateN (hash : Str → Str) (now : Nat) (api_key : Str) :
    Nat → Store → List Verdict × Store
  | 0, s => ([], s)
  | Nat.succ n, s =>
    let out := validate_api_key hash now s api_key
    let rest := validateN hash now api_key n out.store
    (out.verdict :: rest.1, rest.2)

/-! ### Basic lemmas about one `validate_api_key` call -/

/-- A credential carrying the tag passes the format check of line 91. -/
theorem fmt_pass {k : Str} (h : tsxTag.isPrefixOf k = true) :
    (k.isEmpty || !(tsxTag.isPrefixOf k)) = false := by
  cases k with
  | nil => simp [tsxTag, List.isPrefixOf] at h
  | cons c cs => simp [h, List.isEmpty]

/-- A tagged credential always passes the format check. -/
theorem fmt_tag_append (t : Str) : tsxTag.isPrefixOf (tsxTag ++ t) = true :=
  List.isPrefixOf_iff_prefix.mpr (List.prefix_append _ _)

/-- Malformed credential: the first branch of `validate_api_key`. -/
theorem validate_malformed (hash : Str → Str) (now : Nat) (store : Store)
    (api_key : Str) (h : api_key = [] ∨ tsxTag.isPrefixOf api_key = false) :
    validate_api_key hash now store api_key =
      { verdict := .invalid "Invalid API key format".data, store := store,
        lookupPerformed := false } := by
  have hc : (api_key.isEmpty || !(tsxTag.isPrefixOf api_key)) = true := by
    rcases h with h | h
    · subst h; simp
    · simp [h]
  simp [validate_api_key, hc]

/-- Deactivated key: the lookup succeeds and `is_active` is false. -/
theorem validate_deactivated (hash : Str → Str) (now : Nat) (store : Store)
    (api_key : Str) (r : ApiKeyRecord)
    (hfmt : tsxTag.isPrefixOf api_key = true)
    (hfind : store.find? (fun x => x.keyHash == hash api_key) = some r)
    (hinactive : r.isActive = false) :
    validate_api_key hash now store api_key =
      { verdict := .invalid "API key has been deactivated".data, store := store,
        lookupPerformed := true } := by
  simp [validate_api_key, fmt_pass hfmt, hfind, hinactive]

/-- Quota-exceeded branch: active, unexpired, no daily reset pending, finite
limit already reached.  The connection is closed without commit, so the
store is unchanged. -/
theorem validate_quota (hash : Str → Str) (now : Nat) (store : Store)
    (api_key : Str) (r : ApiKeyRecord)
    (hfmt : tsxTag.isPrefixOf api_key = true)
    (hfind : store.find? (fun x => x.keyHash == hash api_key) = some r)
    (hactive : r.isActive = true)
    (hexp : isExpired r.expiresAt now = false)
    (hday : ¬ toDate r.createdAt < toDate now)
    (hpos : 0 < r.requestLimit)
    (hmade : r.requestLimit ≤ (r.requestsMade : Int)) :
    validate_api_key hash now store api_key =
      { verdict := .invalid "Daily API limit exceeded".data, store := store,
        lookupPerformed := true } := by
  simp [validate_api_key, fmt_pass hfmt, hfind, hactive, hexp, hday, hpos, hmade]

/-- Successful consume without daily reset. -/
theorem validate_valid_noreset (hash : Str → Str) (now : Nat) (store : Store)
    (api_key : Str) (r : ApiKeyRecord)
    (hfmt : tsxTag.isPrefixOf api_key = true)
    (hfind : store.find? (fun x => x.keyHash == hash api_key) = some r)
    (hactive : r.isActive = true)
    (hexp : isExpired r.expiresAt now = false)
    (hday : ¬ toDate r.createdAt < toDate now)
    (hquota : ¬ (0 < r.requestLimit ∧ r.requestLimit ≤ (r.requestsMade : Int))) :
    validate_api_key hash now store api_key =
      { verdict := .valid r.userEmail r.planType
          (if 0 < r.requestLimit then
            some (max 0 (r.requestLimit - (r.requestsMade : Int) - 1))
           else none),
        store := updateWhere (hash api_key) (consumeRow now) store,
        lookupPerformed := true } := by
  simp [validate_api_key, fmt_pass hfmt, hfind, hactive, hexp, hday, hquota]

/-- Successful consume on a later calendar day: the counter is first reset
to 0, so the quota check passes for any positive limit. -/
theorem validate_valid_reset (hash : Str → Str) (now : Nat) (store : Store)
    (api_key : Str) (r : ApiKeyRecord)
    (hfmt : tsxTag.isPrefixOf api_key = true)
    (hfind : store.find? (fun x => x.keyHash == hash api_key) = some r)
    (hactive : r.isActive = true)
    (hexp : isExpired r.expiresAt now = false)
    (hday : toDate r.createdAt < toDate now)
    (hpos : 0 < r.requestLimit) :
    validate_api_key hash now store api_key =
      { verdict := .valid r.userEmail r.planType (some (r.requestLimit - 1)),
        store := updateWhere (hash api_key) (consumeRow now)
          (updateWhere (hash api_key) resetRow store),
        lookupPerformed := true } := by
  have hq : ¬ (0 < r.requestLimit ∧ r.requestLimit ≤ (0 : Int)) := by
    rintro ⟨h1, h2⟩; omega
  simp [validate_api_key, fmt_pass hfmt, hfind, hactive, hexp, hday, hq, hpos]
  rw [if_neg (by omega : ¬ r.requestLimit ≤ 0),
    max_eq_right (by omega : (0 : Int) ≤ r.requestLimit - 1)]

/-! ### Singleton-store helpers -/

/-- Lookup in a one-row table whose row matches the hash. -/
theorem find?_singleton (r : ApiKeyRecord) (h : Str) (hh : r.keyHash = h) :
    List.find? (fun x => x.keyHash == h) [r] = some r :=
  List.find?_cons_of_pos _ (by simp [hh])

/-- Updating a one-row table whose row matches the hash. -/
theorem updateWhere_singleton (r : ApiKeyRecord) (h : Str)
    (f : ApiKeyRecord → ApiKeyRecord) (hh : r.keyHash = h) :
    updateWhere h f [r] = [f r] := by
  simp [updateWhere, hh]

@[simp]
theorem consumeRow_fields (now : Nat) (r : ApiKeyRecord) :
    (consumeRow now r).keyHash = r.keyHash ∧
    (consumeRow now r).keyId = r.keyId ∧
    (consumeRow now r).userEmail = r.userEmail ∧
    (consumeRow now r).planType = r.planType ∧
    (consumeRow now r).requestLimit = r.requestLimit ∧
    (consumeRow now r).createdAt = r.createdAt ∧
    (consumeRow now r).expiresAt = r.expiresAt ∧
    (consumeRow now r).isActive = r.isActive ∧
    (consumeRow now r).requestsMade = r.requestsMade + 1 := by
  simp [consumeRow]

@[simp]
theorem resetRow_fields (r : ApiKeyRecord) :
    (resetRow r).keyHash = r.keyHash ∧
    (resetRow r).keyId = r.keyId ∧
    (resetRow r).userEmail = r.userEmail ∧
    (resetRow r).planType = r.planType ∧
    (resetRow r).requestLimit = r.requestLimit ∧
    (resetRow r).createdAt = r.createdAt ∧
    (resetRow r).expiresAt = r.expiresAt ∧
    (resetRow r).isActive = r.isActive ∧
    (resetRow r).requestsMade = 0 := by
  simp [resetRow]

/-! ### Iterated validation lemmas -/

/-- Splitting a run of sequential calls. -/
theorem validateN_add (hash : Str → Str) (now : Nat) (api_key : Str)
    (a b : Nat) (s : Store) :
    validateN hash now api_key (a + b) s =
      ((validateN hash now api_key a s).1 ++
         (validateN hash now api_key b (validateN hash now api_key a s).2).1,
       (validateN hash now api_key b (validateN hash now api_key a s).2).2) := by
  induction a generalizing s with
  | zero => simp [validateN]
  | succ n ih =>
    have : n + 1 + b = (n + b) + 1 := by omega
    rw [this]
    simp only [validateN, ih, List.cons_append]

/-- A key stuck at its limit (no reset pending) rejects any number of
sequential calls, leaving the table unchanged. -/
theorem run_quota (hash : Str → Str) (now : Nat) (api_key : Str)
    (r : ApiKeyRecord)
    (hfmt : tsxTag.isPrefixOf api_key = true)
    (hhash : r.keyHash = hash api_key)
    (hactive : r.isActive = true)
    (hexp : isExpired r.expiresAt now = false)
    (hday : ¬ toDate r.createdAt < toDate now)
    (hpos : 0 < r.requestLimit)
    (hmade : r.requestLimit ≤ (r.requestsMade : Int)) (k : Nat) :
    validateN hash now api_key k [r] =
      (List.replicate k (Verdict.invalid "Daily API limit exceeded".data), [r]) := by
  induction k with
  | zero => simp [validateN]
  | succ n ih =>
    have hstep := validate_quota hash now [r] api_key r hfmt
      (find?_singleton r _ hhash) hactive hexp hday hpos hmade
    simp only [validateN, hstep, ih, List.replicate_succ]

/-- Unfolding one step of `validateN`. -/
theorem validateN_succ (hash : Str → Str) (now : Nat) (api_key : Str)
    (n : Nat) (s : Store) :
    validateN hash now api_key (n + 1) s =
      ((validate_api_key hash now s api_key).verdict ::
         (validateN hash now api_key n (validate_api_key hash now s api_key).store).1,
       (validateN hash now api_key n (validate_api_key hash now s api_key).store).2) :=
  rfl

/-- A run of `k + 1` sequential calls on a same-day key with enough quota
head-room: every call succeeds, the counter advances by one per call, and
the reported remaining counts descend. -/
theorem run_valid (hash : Str → Str) (now : Nat) (api_key : Str)
    (r : ApiKeyRecord)
    (hfmt : tsxTag.isPrefixOf api_key = true)
    (hhash : r.keyHash = hash api_key)
    (hactive : r.isActive = true)
    (hexp : isExpired r.expiresAt now = false)
    (hday : ¬ toDate r.createdAt < toDate now)
    (k : Nat)
    (hk : (r.requestsMade : Int) + (k + 1) ≤ r.requestLimit) :
    validateN hash now api_key (k + 1) [r] =
      ((List.range (k + 1)).map (fun (i : Nat) => Verdict.valid r.userEmail r.planType
          (some (r.requestLimit - (r.requestsMade : Int) - (i : Int) - 1))),
       [{ r with requestsMade := r.requestsMade + (k + 1), lastUsed := some now }]) := by
  induction k generalizing r with
  | zero =>
    have hquota : ¬ (0 < r.requestLimit ∧ r.requestLimit ≤ (r.requestsMade : Int)) := by
      rintro ⟨h1, h2⟩; omega
    have hstep := validate_valid_noreset hash now [r] api_key r hfmt
      (find?_singleton r _ hhash) hactive hexp hday hquota
    rw [updateWhere_singleton r _ _ hhash] at hstep
    simp only [validateN, hstep]
    rw [if_pos (by omega : (0 : Int) < r.requestLimit),
      max_eq_right (by omega : (0 : Int) ≤ r.requestLimit - (r.requestsMade : Int) - 1)]
    simp [consumeRow, List.range_succ]
  | succ n ih =>
    have hquota : ¬ (0 < r.requestLimit ∧ r.requestLimit ≤ (r.requestsMade : Int)) := by
      rintro ⟨h1, h2⟩; omega
    have hstep := validate_valid_noreset hash now [r] api_key r hfmt
      (find?_singleton r _ hhash) hactive hexp hday hquota
    rw [updateWhere_singleton r _ _ hhash] at hstep
    have hih := ih (consumeRow now r) (by simpa [consumeRow] using hhash)
      (by simp [consumeRow, hactive]) (by simp [consumeRow, hexp])
      (by simpa [consumeRow] using hday)
      (by simp only [consumeRow]; push_cast; push_cast at hk; omega)
    rw [show n + 1 + 1 = (n + 1) + 1 from rfl, validateN_succ, hstep]
    dsimp only
    rw [hih]
    rw [if_pos (by omega : (0 : Int) < r.requestLimit),
      max_eq_right (by omega : (0 : Int) ≤ r.requestLimit - (r.requestsMade : Int) - 1)]
    simp only [Prod.mk.injEq]
    refine ⟨?_, ?_⟩
    · conv_rhs => rw [List.range_succ_eq_map, List.map_cons, List.map_map]
      refine congrArg₂ _ (by simp) ?_
      apply List.map_congr_left
      intro i _
      simp only [Function.comp, consumeRow]
      congr 2
      push_cast
      ring
    · have harith : r.requestsMade + 1 + (n + 1) = r.requestsMade + (n + 1 + 1) := by
        omega
      simp [consumeRow, harith]

/-- Single successful call on a one-row table on a later calendar day:
the row is reset to 0 and then consumed, ending at `requestsMade = 1`. -/
theorem validate_reset_singleton (hash : Str → Str) (now : Nat) (api_key : Str)
    (r : ApiKeyRecord)
    (hfmt : tsxTag.isPrefixOf api_key = true)
    (hhash : r.keyHash = hash api_key)
    (hactive : r.isActive = true)
    (hexp : isExpired r.expiresAt now = false)
    (hday : toDate r.createdAt < toDate now)
    (hpos : 0 < r.requestLimit) :
    validate_api_key hash now [r] api_key =
      { verdict := .valid r.userEmail r.planType (some (r.requestLimit - 1)),
        store := [{ r with requestsMade := 1, lastUsed := some now }],
        lookupPerformed := true } := by
  have hstep := validate_valid_reset hash now [r] api_key r hfmt
    (find?_singleton r _ hhash) hactive hexp hday hpos
  rw [updateWhere_singleton r _ _ hhash,
    updateWhere_singleton (resetRow r) _ _ (by simp [resetRow, hhash])] at hstep
  rw [hstep]
  simp [consumeRow, resetRow]

/-- Any number of calls on a one-row table whose row is the fixed point of
reset-then-consume (`requestsMade = 1`, `lastUsed = some now`): every call
succeeds and the table no longer changes. -/
theorem run_reset_fixpoint (hash : Str → Str) (now : Nat) (api_key : Str)
    (q : ApiKeyRecord)
    (hfmt : tsxTag.isPrefixOf api_key = true)
    (hhash : q.keyHash = hash api_key)
    (hactive : q.isActive = true)
    (hexp : isExpired q.expiresAt now = false)
    (hday : toDate q.createdAt < toDate now)
    (hpos : 0 < q.requestLimit)
    (hone : q.requestsMade = 1)
    (hlast : q.lastUsed = some now) (m : Nat) :
    validateN hash now api_key m [q] =
      (List.replicate m (Verdict.valid q.userEmail q.planType (some (q.requestLimit - 1))),
       [q]) := by
  have hfix : { q with requestsMade := 1, lastUsed := some now } = q := by
    ext1 <;> simp [hone, hlast]
  induction m with
  | zero => simp [validateN]
  | succ n ih =>
    have hstep := validate_reset_singleton hash now api_key q hfmt hhash hactive
      hexp hday hpos
    rw [hfix] at hstep
    rw [validateN_succ, hstep]
    dsimp only
    rw [ih]
    simp [List.replicate_succ]

/-- Lookup through a hash-preserving `UPDATE`: the updated row is found. -/
theorem find?_updateWhere (h : Str) (f : ApiKeyRecord → ApiKeyRecord)
    (hpres : ∀ x, (f x).keyHash = x.keyHash) (l : Store) :
    (updateWhere h f l).find? (fun x => x.keyHash == h) =
      (l.find? (fun x => x.keyHash == h)).map
        (fun x => if x.keyHash = h then f x else x) := by
  induction l with
  | nil => simp [updateWhere]
  | cons a l ih =>
    by_cases ha : a.keyHash = h
    · rw [updateWhere, List.map_cons, if_pos ha,
        List.find?_cons_of_pos _ (by simp [hpres, ha]),
        List.find?_cons_of_pos _ (by simp [ha])]
      simp [ha]
    · rw [updateWhere, List.map_cons, if_neg ha,
        List.find?_cons_of_neg _ (by simp [ha]),
        List.find?_cons_of_neg _ (by simp [ha])]
      exact ih

/-! ### Claim theorems -/

/-- C1: a fresh free-plan key (created today, `requestsMade = 0`,
`requestLimit = 100`) validated 101 times in sequence yields `Valid` for
each of the first 100 calls (remaining counts 99 down to 0) and
`Invalid{quotaExceeded}` on the 101st; the rejected call performs no
increment, so `requestsMade` ends exactly at the limit, 100. -/
theorem claim_c1_fresh_key_101_calls (hash : Str → Str) (now : Nat)
    (token user_email user_name : Str) :
    validateN hash now (tsxTag ++ token) 101
        (generate_api_key hash now [] token user_email user_name "free".data).2 =
      ((List.range 100).map (fun (i : Nat) => Verdict.valid user_email "free".data
          (some (99 - (i : Int)))) ++
         [Verdict.invalid "Daily API limit exceeded".data],
       [{ issuedRecord hash now token user_email user_name "free".data with
            requestsMade := 100, lastUsed := some now }]) := by
  set r := issuedRecord hash now token user_email user_name "free".data with hr
  have hstore : (generate_api_key hash now [] token user_email user_name
      "free".data).2 = [r] := by
    simp [generate_api_key]
  have hfmt := fmt_tag_append token
  have hhash : r.keyHash = hash (tsxTag ++ token) := rfl
  have hactive : r.isActive = true := rfl
  have hexp : isExpired r.expiresAt now = false := by
    have hle : ¬ (now + yearSeconds < now) := by omega
    simp [hr, issuedRecord, isExpired, hle]
  have hday : ¬ toDate r.createdAt < toDate now := by
    simp [hr, issuedRecord]
  have hlim : r.requestLimit = 100 := rfl
  have hmade : r.requestsMade = 0 := rfl
  rw [hstore, show (101 : Nat) = 100 + 1 from rfl,
    validateN_add hash now (tsxTag ++ token) 100 1 [r],
    show (100 : Nat) = 99 + 1 from rfl,
    run_valid hash now (tsxTag ++ token) r hfmt hhash hactive hexp hday 99
      (by rw [hlim, hmade]; norm_num)]
  have hrun2 := run_quota hash now (tsxTag ++ token)
    { r with requestsMade := r.requestsMade + (99 + 1), lastUsed := some now }
    hfmt (by simpa using hhash) (by simpa using hactive) (by simpa using hexp)
    (by simpa using hday) (by simp [hlim]) (by simp [hlim, hmade]) 1
  rw [hrun2]
  refine congrArg₂ _ ?_ (by simp [hmade])
  refine congrArg₂ _ ?_ rfl
  apply List.map_congr_left
  intro i _
  have : r.userEmail = user_email := rfl
  have hplan : r.planType = "free".data := rfl
  rw [this, hplan, hlim, hmade]
  congr 2
  omega

/-- C4: an empty credential, or one not starting with the `tsx_` tag, is
rejected as `Invalid{malformed}` with no storage lookup performed and the
store unchanged, whatever the store state. -/
theorem claim_c4_malformed_no_lookup (hash : Str → Str) (now : Nat)
    (store : Store) (api_key : Str)
    (h : api_key = [] ∨ tsxTag.isPrefixOf api_key = false) :
    validate_api_key hash now store api_key =
      { verdict := .invalid "Invalid API key format".data, store := store,
        lookupPerformed := false } :=
  validate_malformed hash now store api_key h

/-- C5: a stored key whose `is_active` is false yields
`Invalid{deactivated}` regardless of its quota or expiry state, and the
store is not mutated. -/
theorem claim_c5_deactivated_wins (hash : Str → Str) (now : Nat)
    (store : Store) (api_key : Str) (r : ApiKeyRecord)
    (hfmt : tsxTag.isPrefixOf api_key = true)
    (hfind : store.find? (fun x => x.keyHash == hash api_key) = some r)
    (hinactive : r.isActive = false) :
    validate_api_key hash now store api_key =
      { verdict := .invalid "API key has been deactivated".data, store := store,
        lookupPerformed := true } :=
  validate_deactivated hash now store api_key r hfmt hfind hinactive

/-- C2: a key whose creation date lies strictly before the current date is
reset to 0 on every call before the quota check, and `createdAt` — the
reset anchor — is never advanced; hence, for any positive finite limit and
any number of calls on the later day, every call that passes the format,
lookup, active and expiry checks returns `Valid`, and `requestsMade` is
exactly 1 after each call (the final table row shows `requestsMade = 1`
with `createdAt` unchanged). -/
theorem claim_c2_prior_day_never_quota (hash : Str → Str) (now : Nat)
    (api_key : Str) (r : ApiKeyRecord)
    (hfmt : tsxTag.isPrefixOf api_key = true)
    (hhash : r.keyHash = hash api_key)
    (hactive : r.isActive = true)
    (hexp : isExpired r.expiresAt now = false)
    (hday : toDate r.createdAt < toDate now)
    (hpos : 0 < r.requestLimit) (n : Nat) :
    validateN hash now api_key (n + 1) [r] =
      (List.replicate (n + 1)
         (Verdict.valid r.userEmail r.planType (some (r.requestLimit - 1))),
       [{ r with requestsMade := 1, lastUsed := some now }]) := by
  have hstep := validate_reset_singleton hash now api_key r hfmt hhash hactive
    hexp hday hpos
  rw [validateN_succ, hstep]
  dsimp only
  have hrun := run_reset_fixpoint hash now api_key
    { r with requestsMade := 1, lastUsed := some now } hfmt
    (by simpa using hhash) (by simpa using hactive) (by simpa using hexp)
    (by simpa using hday) (by simpa using hpos) (by simp) (by simp) n
  rw [hrun]
  simp [List.replicate_succ]

/-- C3: a key (active, unexpired, finite positive limit) whose counter was
driven to the limit on a previous calendar day succeeds on the first call
of a later day: the verdict is `Valid` and the stored row afterwards has
`requestsMade = 1` (lazy reset to 0, then increment). -/
theorem claim_c3_rollover_revalidates (hash : Str → Str) (now : Nat)
    (store : Store) (api_key : Str) (r : ApiKeyRecord)
    (hfmt : tsxTag.isPrefixOf api_key = true)
    (hfind : store.find? (fun x => x.keyHash == hash api_key) = some r)
    (hactive : r.isActive = true)
    (hexp : isExpired r.expiresAt now = false)
    (hday : toDate r.createdAt < toDate now)
    (hpos : 0 < r.requestLimit)
    (hmade : (r.requestsMade : Int) = r.requestLimit) :
    (validate_api_key hash now store api_key).verdict =
      Verdict.valid r.userEmail r.planType (some (r.requestLimit - 1)) ∧
    (validate_api_key hash now store api_key).store.find?
        (fun x => x.keyHash == hash api_key) =
      some { r with requestsMade := 1, lastUsed := some now } := by
  have hstep := validate_valid_reset hash now store api_key r hfmt hfind hactive
    hexp hday hpos
  have hh : r.keyHash = hash api_key := by
    have := List.find?_some hfind
    simpa using this
  constructor
  · rw [hstep]
  · rw [hstep]
    dsimp only
    rw [find?_updateWhere _ _ (fun x => by simp [consumeRow]) _,
      find?_updateWhere _ _ (fun x => by simp [resetRow]) _, hfind]
    simp [hh, resetRow, consumeRow]

/-! ### Concrete instances used by the witnesses -/

/-- The identity function on character lists, used as a concrete stand-in
for the abstract hash in fully evaluated examples. -/
def plainHash : Str → Str := fun s => s

/-- A concrete free-plan row as issued at time 0 with token `"t0"`. -/
def baseRec : ApiKeyRecord :=
  issuedRecord plainHash 0 "t0".data "e@x.com".data "nm".data "free".data

/-- A second row with an unrelated hash, so lookups must skip it. -/
def otherRec : ApiKeyRecord :=
  { baseRec with keyId := "zz".data, keyHash := "zz".data }

/-- `baseRec` with its counter driven to the limit. -/
def fullRec : ApiKeyRecord := { baseRec with requestsMade := 100 }

/-- `baseRec` deactivated, expired and over quota all at once. -/
def inactiveRec : ApiKeyRecord :=
  { baseRec with isActive := false, expiresAt := some 1, requestsMade := 500 }

theorem claim_c2_witness :
    tsxTag.isPrefixOf ("tsx_t0".data) = true ∧
    baseRec.keyHash = plainHash "tsx_t0".data ∧
    baseRec.isActive = true ∧
    isExpired baseRec.expiresAt 90000 = false ∧
    toDate baseRec.createdAt < toDate 90000 ∧
    0 < baseRec.requestLimit ∧
    validateN plainHash 90000 "tsx_t0".data 3 [baseRec] =
      (List.replicate 3
         (Verdict.valid baseRec.userEmail baseRec.planType
           (some (baseRec.requestLimit - 1))),
       [{ baseRec with requestsMade := 1, lastUsed := some 90000 }]) :=
  ⟨by decide, by decide, by decide, by decide, by decide, by decide,
   claim_c2_prior_day_never_quota plainHash 90000 "tsx_t0".data baseRec
     (by decide) (by decide) (by decide) (by decide) (by decide) (by decide) 2⟩

theorem claim_c3_witness :
    ([otherRec, fullRec].find?
        (fun x => x.keyHash == plainHash "tsx_t0".data) = some fullRec) ∧
    (fullRec.requestsMade : Int) = fullRec.requestLimit ∧
    toDate fullRec.createdAt < toDate 90000 ∧
    (validate_api_key plainHash 90000 [otherRec, fullRec]
        "tsx_t0".data).verdict =
      Verdict.valid fullRec.userEmail fullRec.planType
        (some (fullRec.requestLimit - 1)) ∧
    (validate_api_key plainHash 90000 [otherRec, fullRec]
        "tsx_t0".data).store.find? (fun x => x.keyHash == plainHash "tsx_t0".data) =
      some { fullRec with requestsMade := 1, lastUsed := some 90000 } := by
  have h := claim_c3_rollover_revalidates plainHash 90000
    [otherRec, fullRec] "tsx_t0".data fullRec
    (by decide) (by decide) (by decide) (by decide) (by decide) (by decide) (by decide)
  exact ⟨by decide, by decide, by decide, h.1, h.2⟩

theorem claim_c4_witness :
    ("abc".data = [] ∨ tsxTag.isPrefixOf "abc".data = false) ∧
    validate_api_key plainHash 0 [baseRec] "abc".data =
      { verdict := .invalid "Invalid API key format".data, store := [baseRec],
        lookupPerformed := false } :=
  ⟨Or.inr (by decide),
   claim_c4_malformed_no_lookup plainHash 0 [baseRec] "abc".data
     (Or.inr (by decide))⟩

theorem claim_c5_witness :
    ([inactiveRec].find?
        (fun x => x.keyHash == plainHash "tsx_t0".data) = some inactiveRec) ∧
    inactiveRec.isActive = false ∧
    isExpired inactiveRec.expiresAt 5 = true ∧
    inactiveRec.requestLimit ≤ (inactiveRec.requestsMade : Int) ∧
    validate_api_key plainHash 5 [inactiveRec] "tsx_t0".data =
      { verdict := .invalid "API key has been deactivated".data,
        store := [inactiveRec], lookupPerformed := true } :=
  ⟨by decide, by decide, by decide, by decide,
   claim_c5_deactivated_wins plainHash 5 [inactiveRec] "tsx_t0".data inactiveRec
     (by decide) (by decide) (by decide)⟩

/-! ### Reachable states and the uniqueness invariant (C6, C7) -/

/-- Reachable `api_keys` table states: the empty table just after
`init_database`, plus everything produced by issuance (both the success and
the `IntegrityError` outcome are the second component) and by validation. -/
inductive Reachable (hash : Str → Str) : Store → Prop where
  | init : Reachable hash []
  | issue (now : Nat) (token user_email user_name plan_type : Str) {s : Store} :
      Reachable hash s →
      Reachable hash
        (generate_api_key hash now s token user_email user_name plan_type).2
  | consume (now : Nat) (api_key : Str) {s : Store} :
      Reachable hash s →
      Reachable hash (validate_api_key hash now s api_key).store

/-- Every stored row was written by an issuance: its `key_hash` is the hash
of some tagged secret, and its `key_id` is that secret's first 12
characters. -/
def WellFormedRow (hash : Str → Str) (r : ApiKeyRecord) : Prop :=
  ∃ token, r.keyHash = hash (tsxTag ++ token) ∧ r.keyId = (tsxTag ++ token).take 12

/-- The invariant maintained by the schema's `key_id TEXT UNIQUE NOT NULL`
constraint: rows are issuance-shaped and `key_id` is pairwise distinct. -/
def StoreInv (hash : Str → Str) (s : Store) : Prop :=
  (∀ r ∈ s, WellFormedRow hash r) ∧ s.Pairwise (fun a b => a.keyId ≠ b.keyId)

/-- A hash-preserving, id-preserving `UPDATE` keeps the invariant. -/
theorem StoreInv.updateWhere {hash : Str → Str} (h : Str)
    (f : ApiKeyRecord → ApiKeyRecord)
    (hkeep : ∀ x, (f x).keyId = x.keyId ∧ (f x).keyHash = x.keyHash)
    {s : Store} (hs : StoreInv hash s) : StoreInv hash (TheraSwitch.updateWhere h f s) := by
  have gkeep : ∀ x : ApiKeyRecord,
      ((if x.keyHash = h then f x else x).keyId = x.keyId ∧
       (if x.keyHash = h then f x else x).keyHash = x.keyHash) := by
    intro x
    by_cases hx : x.keyHash = h
    · simp [hx, hkeep x]
    · simp [hx]
  constructor
  · intro r hr
    rcases List.mem_map.1 hr with ⟨x, hxm, rfl⟩
    rcases hs.1 x hxm with ⟨t, ht1, ht2⟩
    exact ⟨t, (gkeep x).2.trans ht1, (gkeep x).1.trans ht2⟩
  · exact List.Pairwise.map _
      (fun a b hab => by rw [(gkeep a).1, (gkeep b).1]; exact hab) hs.2

/-- `validate_api_key` keeps the invariant in every branch. -/
theorem StoreInv.validate {hash : Str → Str} (now : Nat) (api_key : Str)
    {s : Store} (hs : StoreInv hash s) :
    StoreInv hash (validate_api_key hash now s api_key).store := by
  unfold validate_api_key
  split
  · exact hs
  · dsimp only
    split
    · exact hs
    · split
      · exact hs
      · split
        · exact hs
        · split
          · split
            · exact hs
            · dsimp only
              exact StoreInv.updateWhere _ (consumeRow now)
                (fun x => by simp [consumeRow])
                (StoreInv.updateWhere _ resetRow (fun x => by simp [resetRow]) hs)
          · split
            · exact hs
            · dsimp only
              exact StoreInv.updateWhere _ (consumeRow now)
                (fun x => by simp [consumeRow]) hs

/-- `generate_api_key` keeps the invariant: the `key_id` uniqueness check
blocks the insert exactly when a duplicate id is present. -/
theorem StoreInv.generate {hash : Str → Str}
    (now : Nat) (token user_email user_name plan_type : Str)
    {s : Store} (hs : StoreInv hash s) :
    StoreInv hash
      (generate_api_key hash now s token user_email user_name plan_type).2 := by
  unfold generate_api_key
  dsimp only
  split
  · exact hs
  · rename_i hany
    have hany' : s.any (fun r => r.keyId == (tsxTag ++ token).take 12) = false :=
      Bool.eq_false_iff.mpr hany
    have hfresh : ∀ a ∈ s, a.keyId ≠ (tsxTag ++ token).take 12 := by
      intro a ha
      have := List.any_eq_false.mp hany' a ha
      simpa using this
    constructor
    · intro r hr
      rcases List.mem_append.1 hr with hm | hm
      · exact hs.1 r hm
      · rcases List.mem_singleton.1 hm with rfl
        exact ⟨token, rfl, rfl⟩
    · rw [List.pairwise_append]
      refine ⟨hs.2, List.pairwise_singleton _ _, ?_⟩
      intro a ha b hb
      rcases List.mem_singleton.1 hb with rfl
      exact hfresh a ha

/-- Invariant over all reachable states. -/
theorem Reachable.storeInv {hash : Str → Str} {s : Store}
    (h : Reachable hash s) : StoreInv hash s := by
  induction h with
  | init => exact ⟨by simp, List.Pairwise.nil⟩
  | issue now token user_email user_name plan_type _ ih =>
    exact StoreInv.generate now token user_email user_name plan_type ih
  | consume now api_key _ ih => exact StoreInv.validate now api_key ih

/-- C7: with the hash collision-free (injective), in every reachable table
state, issuing a secret whose hash is already stored reports the conflict
(`None`) and leaves the table unchanged — the `key_id UNIQUE` constraint
fires because equal hashes force equal secrets, hence equal 12-character
prefixes; and no two stored rows ever share a `key_hash`. -/
theorem claim_c7_secret_hash_unique (hash : Str → Str)
    (hinj : Function.Injective hash) (s : Store) (hreach : Reachable hash s)
    (now : Nat) (token user_email user_name plan_type : Str)
    (hex : ∃ r ∈ s, r.keyHash = hash (tsxTag ++ token)) :
    generate_api_key hash now s token user_email user_name plan_type = (none, s) ∧
    s.Pairwise (fun a b => a.keyHash ≠ b.keyHash) := by
  have hinv := hreach.storeInv
  constructor
  · rcases hex with ⟨r, hm, hh⟩
    rcases hinv.1 r hm with ⟨t, ht1, ht2⟩
    have hsec : tsxTag ++ t = tsxTag ++ token := hinj (ht1 ▸ hh)
    have hid : r.keyId = (tsxTag ++ token).take 12 := by rw [ht2, hsec]
    have hany : s.any (fun x => x.keyId == (tsxTag ++ token).take 12) = true :=
      List.any_eq_true.mpr ⟨r, hm, by simp [hid]⟩
    unfold generate_api_key
    dsimp only
    rw [if_pos hany]
  · refine List.Pairwise.imp_of_mem ?_ hinv.2
    intro a b ha hb hne heq
    rcases hinv.1 a ha with ⟨ta, ha1, ha2⟩
    rcases hinv.1 b hb with ⟨tb, hb1, hb2⟩
    have hsec : tsxTag ++ ta = tsxTag ++ tb := hinj (by rw [← ha1, ← hb1, heq])
    exact hne (by rw [ha2, hb2, hsec])

/-- C6: round-trip of issuance and lookup.  A successful `Issue` from a
reachable state, with a plan in the fixed enumeration and non-empty owner
fields, persists a row that the hash lookup of the returned credential
retrieves, carrying exactly the requested `ownerEmail`, `plan`, and the
plan's fixed ceiling (free=100, basic=1000, pro=10000, enterprise=-1). -/
theorem claim_c6_issue_lookup_roundtrip (hash : Str → Str)
    (hinj : Function.Injective hash) (s : Store) (hreach : Reachable hash s)
    (now : Nat) (token user_email user_name plan_type : Str)
    (hemail : user_email ≠ []) (hname : user_name ≠ [])
    (hplan : plan_type = "free".data ∨ plan_type = "basic".data ∨
      plan_type = "pro".data ∨ plan_type = "enterprise".data)
    (hsucc : (generate_api_key hash now s token user_email user_name
      plan_type).1 ≠ none) :
    ∃ k, (generate_api_key hash now s token user_email user_name
        plan_type).1 = some k ∧
      (generate_api_key hash now s token user_email user_name plan_type).2.find?
          (fun x => x.keyHash == hash k.api_key) =
        some (issuedRecord hash now token user_email user_name plan_type) ∧
      (issuedRecord hash now token user_email user_name plan_type).userEmail
        = user_email ∧
      (issuedRecord hash now token user_email user_name plan_type).planType
        = plan_type ∧
      (issuedRecord hash now token user_email user_name plan_type).requestLimit
        = limits plan_type ∧
      limits "free".data = 100 ∧ limits "basic".data = 1000 ∧
      limits "pro".data = 10000 ∧ limits "enterprise".data = -1 := by
  have hinv := hreach.storeInv
  rcases hca : s.any (fun r => r.keyId == (tsxTag ++ token).take 12) with _ | _
  case true =>
    exfalso
    apply hsucc
    unfold generate_api_key
    dsimp only
    rw [if_pos hca]
  case false =>
    have hgen : generate_api_key hash now s token user_email user_name plan_type =
        (some { api_key := tsxTag ++ token, plan := plan_type,
                daily_limit := limits plan_type, expires_at := now + yearSeconds },
         s ++ [issuedRecord hash now token user_email user_name plan_type]) := by
      unfold generate_api_key
      dsimp only
      rw [if_neg (by simp [hca])]
    refine ⟨_, by rw [hgen], ?_, rfl, rfl, rfl, by decide, by decide, by decide,
      by decide⟩
    rw [hgen]
    dsimp only
    have hnone : s.find? (fun x => x.keyHash == hash (tsxTag ++ token)) = none := by
      rw [List.find?_eq_none]
      intro x hx hbeq
      rcases hinv.1 x hx with ⟨t, ht1, ht2⟩
      have hxh : x.keyHash = hash (tsxTag ++ token) := by simpa using hbeq
      have hsec : tsxTag ++ t = tsxTag ++ token := hinj (ht1 ▸ hxh)
      have hid : x.keyId = (tsxTag ++ token).take 12 := by rw [ht2, hsec]
      have : s.any (fun r => r.keyId == (tsxTag ++ token).take 12) = true :=
        List.any_eq_true.mpr ⟨x, hx, by simp [hid]⟩
      rw [hca] at this
      exact Bool.false_ne_true this
    rw [List.find?_append, hnone]
    simp [issuedRecord]

theorem claim_c7_witness :
    Function.Injective plainHash ∧
    Reachable plainHash [baseRec] ∧
    (∃ r ∈ [baseRec], r.keyHash = plainHash (tsxTag ++ "t0".data)) ∧
    generate_api_key plainHash 5 [baseRec] "t0".data "f@x.com".data "g".data
        "pro".data = (none, [baseRec]) ∧
    ([baseRec] : Store).Pairwise (fun a b => a.keyHash ≠ b.keyHash) := by
  have hreach : Reachable plainHash [baseRec] := by
    have h1 : Reachable plainHash
        (generate_api_key plainHash 0 [] "t0".data "e@x.com".data "nm".data
          "free".data).2 :=
      Reachable.issue 0 "t0".data "e@x.com".data "nm".data "free".data
        Reachable.init
    have he : (generate_api_key plainHash 0 [] "t0".data "e@x.com".data
        "nm".data "free".data).2 = [baseRec] := by decide
    rw [he] at h1
    exact h1
  have h := claim_c7_secret_hash_unique plainHash (fun _ _ hh => hh) [baseRec]
    hreach 5 "t0".data "f@x.com".data "g".data "pro".data
    ⟨baseRec, by decide, by decide⟩
  exact ⟨fun _ _ hh => hh, hreach, ⟨baseRec, by decide, by decide⟩, h.1, h.2⟩

theorem claim_c6_witness :
    Function.Injective plainHash ∧
    Reachable plainHash ([] : Store) ∧
    "e@x.com".data ≠ ([] : Str) ∧ "nm".data ≠ ([] : Str) ∧
    ((generate_api_key plainHash 0 [] "t0".data "e@x.com".data "nm".data
        "free".data).1 ≠ none) ∧
    (∃ k, (generate_api_key plainHash 0 [] "t0".data "e@x.com".data "nm".data
        "free".data).1 = some k ∧
      (generate_api_key plainHash 0 [] "t0".data "e@x.com".data "nm".data
          "free".data).2.find? (fun x => x.keyHash == plainHash k.api_key) =
        some (issuedRecord plainHash 0 "t0".data "e@x.com".data "nm".data
          "free".data) ∧
      (issuedRecord plainHash 0 "t0".data "e@x.com".data "nm".data
        "free".data).userEmail = "e@x.com".data ∧
      (issuedRecord plainHash 0 "t0".data "e@x.com".data "nm".data
        "free".data).planType = "free".data ∧
      (issuedRecord plainHash 0 "t0".data "e@x.com".data "nm".data
        "free".data).requestLimit = limits "free".data ∧
      limits "free".data = 100 ∧ limits "basic".data = 1000 ∧
      limits "pro".data = 10000 ∧ limits "enterprise".data = -1) :=
  ⟨fun _ _ hh => hh, Reachable.init, by decide, by decide, by decide,
   claim_c6_issue_lookup_roundtrip plainHash (fun _ _ hh => hh) [] Reachable.init
     0 "t0".data "e@x.com".data "nm".data "free".data (by decide) (by decide)
     (Or.inl rfl) (by decide)⟩

/-! ### Plan validation at the HTTP boundary (C8) -/

/-- The plan check of `create_api_key` in src/web_app.py (lines 384-390):
`if plan not in ['free', 'basic', 'pro', 'enterprise']` the request is
rejected with `INVALID_PLAN` before `generate_api_key` is ever called. -/
def boundaryPlanOk (plan : Str) : Bool :=
  plan == "free".data || plan == "basic".data || plan == "pro".data ||
    plan == "enterprise".data

/-- C8 counterexample: the core `generate_api_key` does not reject the
out-of-enumeration plan `"gold"`; it persists a row with `plan_type`
`"gold"` and the `limits.get` default ceiling 100.  Plan validation exists
only at the HTTP boundary. -/
theorem claim_c8_counterexample :
    ¬("gold".data = "free".data ∨ "gold".data = "basic".data ∨
      "gold".data = "pro".data ∨ "gold".data = "enterprise".data) ∧
    (generate_api_key plainHash 0 [] "t1".data "f@x.com".data "g".data
        "gold".data).1 =
      some { api_key := tsxTag ++ "t1".data, plan := "gold".data,
             daily_limit := 100, expires_at := yearSeconds } ∧
    (generate_api_key plainHash 0 [] "t1".data "f@x.com".data "g".data
        "gold".data).2 =
      [issuedRecord plainHash 0 "t1".data "f@x.com".data "g".data "gold".data] ∧
    (issuedRecord plainHash 0 "t1".data "f@x.com".data "g".data
        "gold".data).requestLimit = 100 ∧
    (issuedRecord plainHash 0 "t1".data "f@x.com".data "g".data
        "gold".data).planType = "gold".data := by
  decide

/-- C8 (amended): the plan enumeration is enforced only at the HTTP
boundary (`boundaryPlanOk`); the core `generate_api_key` accepts any plan
string, persisting the record with the plan as given and `request_limit`
defaulted to 100 for plans outside the enumeration. -/
theorem claim_c8_plan_checked_at_boundary_only (plan : Str)
    (h1 : plan ≠ "free".data) (h2 : plan ≠ "basic".data)
    (h3 : plan ≠ "pro".data) (h4 : plan ≠ "enterprise".data)
    (hash : Str → Str) (now : Nat) (store : Store)
    (token user_email user_name : Str)
    (hfree : store.any (fun r => r.keyId == (tsxTag ++ token).take 12) = false) :
    boundaryPlanOk plan = false ∧
    generate_api_key hash now store token user_email user_name plan =
      (some { api_key := tsxTag ++ token, plan := plan, daily_limit := 100,
              expires_at := now + yearSeconds },
       store ++ [issuedRecord hash now token user_email user_name plan]) ∧
    (issuedRecord hash now token user_email user_name plan).requestLimit = 100 ∧
    (issuedRecord hash now token user_email user_name plan).planType = plan := by
  have hlim : limits plan = 100 := by
    unfold limits
    rw [if_neg h1, if_neg h2, if_neg h3, if_neg h4]
  refine ⟨?_, ?_, ?_, rfl⟩
  · simp [boundaryPlanOk, h1, h2, h3, h4]
  · unfold generate_api_key
    dsimp only
    rw [if_neg (by simp [hfree]), hlim]
  · simp [issuedRecord, hlim]

theorem claim_c8_witness :
    ("or".data ≠ "free".data ∧ "or".data ≠ "basic".data ∧
     "or".data ≠ "pro".data ∧ "or".data ≠ "enterprise".data ∧
     ([] : Store).any (fun r => r.keyId == (tsxTag ++ "t1".data).take 12)
       = false) ∧
    boundaryPlanOk "or".data = false ∧
    generate_api_key plainHash 0 [] "t1".data "f@x.com".data "g".data
        "or".data =
      (some { api_key := tsxTag ++ "t1".data, plan := "or".data,
              daily_limit := 100, expires_at := yearSeconds },
       [issuedRecord plainHash 0 "t1".data "f@x.com".data "g".data "or".data]) ∧
    (issuedRecord plainHash 0 "t1".data "f@x.com".data "g".data
        "or".data).requestLimit = 100 ∧
    (issuedRecord plainHash 0 "t1".data "f@x.com".data "g".data
        "or".data).planType = "or".data := by
  have h := claim_c8_plan_checked_at_boundary_only "or".data (by decide)
    (by decide) (by decide) (by decide) plainHash 0 [] "t1".data
    "f@x.com".data "g".data (by decide)
  exact ⟨⟨by decide, by decide, by decide, by decide, by decide⟩,
    h.1, h.2.1, h.2.2.1, h.2.2.2⟩

/-! ### Usage logging (C9) -/

/-- One row of the `api_usage` table (src/api_auth.py, `init_database`). -/
structure UsageRecord where
  keyId : Str
  endpoint : Str
  ipAddress : Str
  userAgent : Str
  deriving Repr, DecidableEq

/-- The storage operations `log_usage` performs, each of which the sqlite
layer may fail with a raised exception (modelled as `Except.error`). -/
structure UsageBackend where
  connect : Except Str Unit
  insertUsage : UsageRecord → Except Str Unit
  commit : Except Str Unit

/-- `APIKeyManager.log_usage` (src/api_auth.py lines 158-169): connect,
`INSERT INTO api_usage ...`, commit, close.  The body contains no
`try`/`except`, so any storage-layer exception propagates to the caller —
and `require_api_key` (lines 202-208) calls it unguarded after a
successful validation. -/
def log_usage (b : UsageBackend)
    (key_id endpoint ip_address user_agent : Str) : Except Str Unit := do
  b.connect
  b.insertUsage
    { keyId := key_id, endpoint := endpoint, ipAddress := ip_address,
      userAgent := user_agent }
  b.commit

/-- A storage backend whose `INSERT` raises (`sqlite3.OperationalError:
database is locked`). -/
def lockedBackend : UsageBackend :=
  { connect := .ok ()
    insertUsage := fun _ => .error "database is locked".data
    commit := .ok () }

/-- C9 evaluated at the failing input: when the usage `INSERT` fails, the
error escapes `log_usage` — the call does not return cleanly, so the
failure reaches the caller and aborts the already-authenticated request,
contrary to the claim that logging failures are swallowed. -/
theorem claim_c9_log_failure_propagates :
    log_usage lockedBackend "tsx_t0462f57d1".data "recommend".data
        "127.0.0.1".data "curl/8.0".data =
      Except.error "database is locked".data := by
  rfl

/-! ### The unsynchronized check-then-increment race (C10) -/

/-- Interleaving of two concurrent `validate_api_key` calls against the
same credential under the schedule SELECT-A, SELECT-B, UPDATE-A, UPDATE-B:
both calls take their row snapshot from the initial table before either
write runs, so each call's verdict is computed from `store`; a call that
decided `Valid` then applies its
`UPDATE requests_made = requests_made + 1` to the then-current table (the
SQL increment reads the row at write time).  This models the race for a
key created today, where no daily-reset write is pending. -/
def raceTwo (hash : Str → Str) (now : Nat) (store : Store) (api_key : Str) :
    Verdict × Verdict × Store :=
  let outA := validate_api_key hash now store api_key
  let outB := validate_api_key hash now store api_key
  let s1 := if outA.verdict.isValid then
      updateWhere (hash api_key) (consumeRow now) store
    else store
  let s2 := if outB.verdict.isValid then
      updateWhere (hash api_key) (consumeRow now) s1
    else s1
  (outA.verdict, outB.verdict, s2)

/-- `baseRec` one request short of its limit. -/
def raceRec : ApiKeyRecord := { baseRec with requestsMade := 99 }

/-- C10 counterexample: with `requestsMade = limit - 1 = 99`, the
unsynchronized interleaving of two calls yields TWO `Valid` verdicts (not
exactly one) and drives `requestsMade` to 101, strictly beyond the limit
100 — the read-check-increment of the code is not atomic per key. -/
theorem claim_c10_counterexample :
    raceRec.requestLimit = 100 ∧ raceRec.requestsMade = 99 ∧
    raceTwo plainHash 0 [raceRec] "tsx_t0".data =
      (Verdict.valid "e@x.com".data "free".data (some 0),
       Verdict.valid "e@x.com".data "free".data (some 0),
       [{ raceRec with requestsMade := 101, lastUsed := some 0 }]) ∧
    ¬ (((({ raceRec with requestsMade := 101, lastUsed := some 0 } : ApiKeyRecord).requestsMade : Int)) ≤ raceRec.requestLimit) := by
  decide

/-- C10 (amended): the sequential (per-call atomic) semantics does satisfy
the property: `n + 1` sequential calls against a key one short of its
finite limit produce exactly one `Valid` (remaining 0) followed by `n`
`Invalid{quotaExceeded}` rejections, and `requestsMade` ends exactly at
the limit, never beyond it.  The concurrent version is refuted by the
counterexample above. -/
theorem claim_c10_sequential_exactly_one_valid (hash : Str → Str) (now : Nat)
    (api_key : Str) (r : ApiKeyRecord)
    (hfmt : tsxTag.isPrefixOf api_key = true)
    (hhash : r.keyHash = hash api_key)
    (hactive : r.isActive = true)
    (hexp : isExpired r.expiresAt now = false)
    (hday : ¬ toDate r.createdAt < toDate now)
    (hlim : r.requestLimit = (r.requestsMade : Int) + 1) (n : Nat) :
    validateN hash now api_key (n + 1) [r] =
      (Verdict.valid r.userEmail r.planType (some 0) ::
         List.replicate n (Verdict.invalid "Daily API limit exceeded".data),
       [{ r with requestsMade := r.requestsMade + 1, lastUsed := some now }]) := by
  rw [show n + 1 = 1 + n by omega, validateN_add,
    show (1 : Nat) = 0 + 1 from rfl,
    run_valid hash now api_key r hfmt hhash hactive hexp hday 0 (by omega)]
  dsimp only
  have hrun2 := run_quota hash now api_key
    { r with requestsMade := r.requestsMade + (0 + 1), lastUsed := some now }
    hfmt (by simpa using hhash) (by simpa using hactive) (by simpa using hexp)
    (by simpa using hday) (by simp; omega) (by simp; push_cast; omega) n
  rw [hrun2]
  refine congrArg₂ _ ?_ (by simp)
  rw [show List.range (0 + 1) = [0] by decide]
  simp only [List.map_cons, List.map_nil, List.cons_append, List.nil_append]
  congr 3
  push_cast
  omega

theorem claim_c10_sequential_witness :
    (tsxTag.isPrefixOf "tsx_t0".data = true ∧
     raceRec.keyHash = plainHash "tsx_t0".data ∧
     raceRec.isActive = true ∧
     isExpired raceRec.expiresAt 0 = false ∧
     ¬ toDate raceRec.createdAt < toDate 0 ∧
     raceRec.requestLimit = (raceRec.requestsMade : Int) + 1) ∧
    validateN plainHash 0 "tsx_t0".data 3 [raceRec] =
      (Verdict.valid raceRec.userEmail raceRec.planType (some 0) ::
         List.replicate 2 (Verdict.invalid "Daily API limit exceeded".data),
       [{ raceRec with requestsMade := raceRec.requestsMade + 1, lastUsed := some 0 }]) :=
  ⟨⟨by decide, by decide, by decide, by decide, by decide, by decide⟩,
   claim_c10_sequential_exactly_one_valid plainHash 0 "tsx_t0".data raceRec
     (by decide) (by decide) (by decide) (by decide) (by decide) (by decide) 2⟩

end TheraSwitch
